import Mathlib

/-! Calendar arithmetic layer: a shallow embedding of the Go standard-library
time-package operations used by src/main.go (time.Date normalization,
AddDate, Year/Month/Day/Weekday accessors).  Dates are represented as the
number of days since January 1 of year 1 (proleptic Gregorian, day 0);
full times as seconds since that instant. -/

/-- Leap-year test of the Go time package: divisible by 4 and
(not divisible by 100 or divisible by 400). -/
def isLeap (y : Int) : Bool := y % 4 == 0 && (y % 100 != 0 || y % 400 == 0)

/-- Number of days from 0001-01-01 to January 1 of year y
(negative for years before 1). -/
def daysToYear (y : Int) : Int :=
  365 * (y - 1) + (y - 1) / 4 - (y - 1) / 100 + (y - 1) / 400

/-- Length of year y in days. -/
def yearLen (y : Int) : Int := if isLeap y then 366 else 365

/-- Cumulative day counts of a non-leap year: daysBefore k is the number of
days in the months strictly before the (k+1)-th month (the daysBefore table
of the Go time package). -/
def daysBefore : Nat → Nat
  | 0 => 0
  | 1 => 31
  | 2 => 59
  | 3 => 90
  | 4 => 120
  | 5 => 151
  | 6 => 181
  | 7 => 212
  | 8 => 243
  | 9 => 273
  | 10 => 304
  | 11 => 334
  | _ => 365

/-- Reference month length (1-based month, with leap flag). -/
def monthLenN (leap : Bool) (m : Nat) : Nat :=
  if m = 2 then (if leap then 29 else 28)
  else if m = 4 ∨ m = 6 ∨ m = 9 ∨ m = 11 then 30
  else 31

/-- Reference month length on integers. -/
def monthLenI (leap : Bool) (m : Int) : Int := (monthLenN leap m.toNat : Int)

/-- Days since 0001-01-01 of the date (y, mo, d), with the month
normalization performed by Go time.Date: month overflow and underflow roll
into the year (norm in the Go time package is floor division), and the day
is added as an offset so day overflow and underflow roll into adjacent
months. -/
def dateToDays (y mo d : Int) : Int :=
  let y2 := y + (mo - 1) / 12
  let m2 := (mo - 1) % 12 + 1
  daysToYear y2 + (daysBefore (m2 - 1).toNat : Int)
    + (if isLeap y2 && decide (3 ≤ m2) then 1 else 0) + (d - 1)

/-- Year and day-of-year (0-based) of a day count, following the
cycle-splitting computation of absDate in the Go time package
(n - n / 4 realizes the clamp written there as n -= n >> 2). -/
def yearYday (z : Int) : Int × Int :=
  let q := z / 146097
  let r := z % 146097
  let n100 := r / 36524 - r / 36524 / 4
  let r1 := r - 36524 * n100
  let n4 := r1 / 1461
  let r2 := r1 - 1461 * n4
  let n1 := r2 / 365 - r2 / 365 / 4
  (400 * q + 100 * n100 + 4 * n4 + n1 + 1, r2 - 365 * n1)

/-- Month and day-of-month from a 0-based day of year, as in absDate of the
Go time package: special-case February 29, then estimate the month by
dividing by 31 and correct against the cumulative table. -/
def monthDayOfYday (leap : Bool) (yday : Nat) : Nat × Nat :=
  let f : Nat → Nat × Nat := fun day =>
    let m0 := day / 31
    let m1 := if daysBefore (m0 + 1) ≤ day then m0 + 1 else m0
    (m1 + 1, day - daysBefore m1 + 1)
  if leap then
    if 59 < yday then f (yday - 1)
    else if yday == 59 then (2, 29)
    else f yday
  else f yday

/-- Civil (year, month, day) components of a day count, as read back by the
Year, Month and Day accessors of the Go time package. -/
def civilFromDays (z : Int) : Int × Int × Int :=
  let yy := yearYday z
  let md := monthDayOfYday (isLeap yy.1) yy.2.toNat
  (yy.1, (md.1 : Int), (md.2 : Int))

/-- Weekday (0 = Sunday .. 6 = Saturday) of a day count: day 0
(January 1 of year 1) is a Monday in the proleptic Gregorian calendar. -/
def weekdayOfDays (z : Int) : Int := (z + 1) % 7

/-- Leap-year adjustment added after February (Nat-level helper). -/
def leapAdjN (leap : Bool) (m : Nat) : Nat := if leap && decide (3 ≤ m) then 1 else 0

/-- First of the displayed month (src/main.go line 194):
time.Date(currentMonth.Year(), currentMonth.Month(), 1, 0, 0, 0, 0, time.Local),
at day resolution. -/
def firstOfMonth (cy cmo : Int) : Int := dateToDays cy cmo 1

/-- AddDate on a day count: read the civil components back and rebuild
(Go time.Time.AddDate). -/
def addDateDays (z yy mm dd : Int) : Int :=
  let c := civilFromDays z
  dateToDays (c.1 + yy) (c.2.1 + mm) (c.2.2 + dd)

/-- Last of the displayed month (src/main.go line 195): firstOfMonth.AddDate(0, 1, -1). -/
def lastOfMonth (cy cmo : Int) : Int := addDateDays (firstOfMonth cy cmo) 0 1 (-1)

/-- Weekday of the first of the month (src/main.go line 196). -/
def firstDayWeekday (cy cmo : Int) : Int := weekdayOfDays (firstOfMonth cy cmo)

/-- Number of days in the displayed month (src/main.go line 197): lastOfMonth.Day(). -/
def daysInMonth (cy cmo : Int) : Int := (civilFromDays (lastOfMonth cy cmo)).2.2

/-- A cell of the rendered month grid: a leading blank or a day button
carrying its day number and its today-highlight flag. -/
inductive Cell where
  | blank : Cell
  | day (n : Nat) (isToday : Bool) : Cell
deriving DecidableEq

/-- The cell sequence appended to the calendar grid by updateCalendar
(src/main.go lines 199-223) after the seven static weekday-header labels:
firstDayWeekday empty cells, then one button per day 1..daysInMonth whose
highlight compares the Year, Month and Day of the day being drawn with
those of today (components ty, tmo, td). -/
def buildCells (cy cmo ty tmo td : Int) : List Cell :=
  List.replicate (firstDayWeekday cy cmo).toNat Cell.blank ++
    (List.range (daysInMonth cy cmo).toNat).map (fun (i : Nat) =>
      Cell.day (i + 1)
        ((civilFromDays (dateToDays cy cmo ((i : Int) + 1))).1 == ty &&
          (civilFromDays (dateToDays cy cmo ((i : Int) + 1))).2.1 == tmo &&
          (civilFromDays (dateToDays cy cmo ((i : Int) + 1))).2.2 == td))

/-- Highlight flag of a cell (blanks are never highlighted). -/
def cellIsToday : Cell → Bool
  | .blank => false
  | .day _ t => t

/-- Number of highlighted cells in a grid. -/
def countToday (l : List Cell) : Nat := l.countP cellIsToday

/-- Erase the highlight flag from a cell. -/
def eraseToday : Cell → Cell
  | .blank => .blank
  | .day n _ => .day n false

/-- Previous-month navigation (src/main.go lines 229-232):
currentMonth = currentMonth.AddDate(0, -1, 0). -/
def prevMonthNav (z : Int) : Int := addDateDays z 0 (-1) 0

/-- Next-month navigation (src/main.go lines 234-237):
currentMonth = currentMonth.AddDate(0, 1, 0). -/
def nextMonthNav (z : Int) : Int := addDateDays z 0 1 0

/-- ASCII character of a decimal digit. -/
def digitChar (n : Nat) : Char := Char.ofNat (48 + n % 10)

/-- Fuel-driven digit accumulation; the fuel only ever needs to exceed the
number of digits, so calling it with the number itself is always enough. -/
def decDigitsAux : Nat → Nat → List Char
  | 0, n => [digitChar n]
  | fuel + 1, n => if n < 10 then [digitChar n] else decDigitsAux fuel (n / 10) ++ [digitChar n]

/-- Decimal digits of a natural number, most significant first (the
decimal rendering of the fmt verb d). -/
def decDigits (n : Nat) : List Char := decDigitsAux n n

/-- Zero padding to a field width (the 0 flag of fmt). -/
def padZeros (w : Nat) (ds : List Char) : List Char :=
  List.replicate (w - ds.length) '0' ++ ds

/-- Character list printed by fmt.Sprintf with a zero-padded decimal verb
of the given width (a sign, when present, counts toward the width). -/
def goPadL (w : Nat) (n : Int) : List Char :=
  if n < 0 then '-' :: padZeros (w - 1) (decDigits (-n).toNat)
  else padZeros w (decDigits n.toNat)

/-- fmt.Sprintf of a single zero-padded decimal field. -/
def goPad (w : Nat) (n : Int) : String := String.mk (goPadL w n)

/-- Character list of the preview rendering
fmt.Sprintf with format %04d-%02d-%02d %02d:%02d:%02d
(src/main.go lines 270-274 and 280-284). -/
def formatPreviewL (y mo d h mi s : Int) : List Char :=
  goPadL 4 y ++ '-' :: (goPadL 2 mo ++ '-' :: (goPadL 2 d ++ ' ' ::
    (goPadL 2 h ++ ':' :: (goPadL 2 mi ++ ':' :: goPadL 2 s))))

/-- The preview string. -/
def formatPreviewStr (y mo d h mi s : Int) : String :=
  String.mk (formatPreviewL y mo d h mi s)

/-- Specification-side rendering: each field written by extracting decimal
digits at fixed positions (four for the year, two for the others). -/
def specPad4 (n : Nat) : List Char :=
  [digitChar (n / 1000), digitChar (n / 100), digitChar (n / 10), digitChar n]

/-- Specification-side two-digit field. -/
def specPad2 (n : Nat) : List Char := [digitChar (n / 10), digitChar n]

/-- Specification-side preview string YYYY-MM-DD HH:MM:SS. -/
def specPreview (y mo d h mi s : Nat) : String :=
  String.mk (specPad4 y ++ '-' :: (specPad2 mo ++ '-' :: (specPad2 d ++ ' ' ::
    (specPad2 h ++ ':' :: (specPad2 mi ++ ':' :: specPad2 s)))))

/-- Year component of a time counted in seconds since 0001-01-01 00:00:00. -/
def tYear (t : Int) : Int := (civilFromDays (t / 86400)).1

/-- Month component of a time in seconds. -/
def tMonth (t : Int) : Int := (civilFromDays (t / 86400)).2.1

/-- Day component of a time in seconds. -/
def tDay (t : Int) : Int := (civilFromDays (t / 86400)).2.2

/-- Hour of day, as computed by the clock accessors of the Go time package. -/
def tHour (t : Int) : Int := t % 86400 / 3600

/-- Minute of hour. -/
def tMin (t : Int) : Int := (t % 86400 - tHour t * 3600) / 60

/-- Second of minute. -/
def tSec (t : Int) : Int := t % 86400 - tHour t * 3600 - tMin t * 60

/-- time.Date(y, mo, d, h, mi, s, 0, loc) as seconds since the epoch: the
date is normalized through dateToDays and the clock is added in seconds. -/
def goTime (y mo d h mi s : Int) : Int :=
  dateToDays y mo d * 86400 + (h * 3600 + mi * 60 + s)

/-- Leading decimal value of a character list (digits already read are in
the accumulator). -/
def readNum (acc : Nat) : List Char → Nat
  | [] => acc
  | c :: cs => if c.isDigit then readNum (acc * 10 + (c.toNat - 48)) cs else acc

/-- Modelled from fmt.Sscanf with verb %d: skip spaces, read an optional
sign and then at least one digit; trailing input is ignored; none is
returned when no digit is found (the scanned variable then keeps its zero
value). -/
def sscanfD (s : String) : Option Int :=
  match s.toList.dropWhile (fun c => c = ' ') with
  | [] => none
  | '-' :: rest =>
    match rest with
    | [] => none
    | c :: _ => if c.isDigit then some (-(readNum 0 rest : Int)) else none
  | '+' :: rest =>
    match rest with
    | [] => none
    | c :: _ => if c.isDigit then some ((readNum 0 rest : Int)) else none
  | c :: rest => if c.isDigit then some ((readNum 0 (c :: rest) : Int)) else none

/-- generateRange (src/main.go lines 154-160): the strings printed with
Sprintf of two zero-padded digits for each value from lo to hi. -/
def generateRange (lo hi : Int) : List String :=
  (List.range (hi - lo + 1).toNat).map (fun (i : Nat) => goPad 2 (lo + (i : Int)))

/-- The hour select callback (src/main.go lines 102-109): a non-empty value
is scanned with Sscanf into a fresh variable (left zero on failure), stored
into hours, and updateTime is invoked; an empty value does nothing.
Returns the stored hours value and whether updateTime ran. -/
def hourSelectCallback (hours : Int) (value : String) : Int × Bool :=
  if value ≠ "" then ((sscanfD value).getD 0, true) else (hours, false)

/-- State of the time picker (CreateTimePicker, src/main.go lines 78-152):
the creation-time currentTime captured by the closures, and the three
mutable selections. -/
structure Picker where
  t0 : Int
  hours : Int
  minutes : Int
  seconds : Int
deriving DecidableEq

/-- CreateTimePicker seeds the selections from the clock of the time it
was created with (src/main.go lines 80-82). -/
def mkPicker (t : Int) : Picker := ⟨t, tHour t, tMin t, tSec t⟩

/-- updateTime (src/main.go lines 85-97): rebuild the selected time from
the captured creation time's year, month and day and the three stored
selections. -/
def pickerTime (p : Picker) : Int :=
  goTime (tYear p.t0) (tMonth p.t0) (tDay p.t0) p.hours p.minutes p.seconds

/-- A selection made in one of the three dropdowns. -/
inductive PickEvent where
  | hour (v : String)
  | minute (v : String)
  | second (v : String)

/-- One select callback (src/main.go lines 100-137): on a non-empty value,
scan it, store it and emit the result of updateTime; otherwise do
nothing. -/
def pickStep (p : Picker) : PickEvent → Picker × Option Int
  | .hour v =>
    if v ≠ "" then
      ({ p with hours := (sscanfD v).getD 0 },
        some (pickerTime { p with hours := (sscanfD v).getD 0 }))
    else (p, none)
  | .minute v =>
    if v ≠ "" then
      ({ p with minutes := (sscanfD v).getD 0 },
        some (pickerTime { p with minutes := (sscanfD v).getD 0 }))
    else (p, none)
  | .second v =>
    if v ≠ "" then
      ({ p with seconds := (sscanfD v).getD 0 },
        some (pickerTime { p with seconds := (sscanfD v).getD 0 }))
    else (p, none)

/-- Run a sequence of selections, collecting every time value passed to
onTimeSelected. -/
def pickRun (p : Picker) : List PickEvent → Picker × List Int
  | [] => (p, [])
  | e :: es =>
    ((pickRun (pickStep p e).1 es).1,
      (pickStep p e).2.toList ++ (pickRun (pickStep p e).1 es).2)

/-- Date label text t.Format with layout 2006-01-02 (src/main.go
lines 267, 289 and 304). -/
def formatDateStr (t : Int) : String :=
  String.mk (goPadL 4 (tYear t) ++ '-' :: (goPadL 2 (tMonth t) ++ '-' :: goPadL 2 (tDay t)))

/-- Modelled from Go time.Parse with layout 2006-01-02: exactly four
digits, a dash, two digits, a dash and two digits, with the month in 1..12
and the day valid for that month; any other input is an error.  On success
the parsed midnight time is returned, in seconds. -/
def parseDate (s : String) : Option Int :=
  match s.toList with
  | [y1, y2, y3, y4, '-', m1, m2, '-', d1, d2] =>
    if y1.isDigit ∧ y2.isDigit ∧ y3.isDigit ∧ y4.isDigit ∧
        m1.isDigit ∧ m2.isDigit ∧ d1.isDigit ∧ d2.isDigit then
      if 1 ≤ (m1.toNat - 48) * 10 + (m2.toNat - 48) ∧
          (m1.toNat - 48) * 10 + (m2.toNat - 48) ≤ 12 ∧
          1 ≤ (d1.toNat - 48) * 10 + (d2.toNat - 48) ∧
          (d1.toNat - 48) * 10 + (d2.toNat - 48) ≤ monthLenN
            (isLeap (((y1.toNat - 48) * 1000 + (y2.toNat - 48) * 100
              + (y3.toNat - 48) * 10 + (y4.toNat - 48) : Nat) : Int))
            ((m1.toNat - 48) * 10 + (m2.toNat - 48)) then
        some (goTime
          (((y1.toNat - 48) * 1000 + (y2.toNat - 48) * 100
            + (y3.toNat - 48) * 10 + (y4.toNat - 48) : Nat) : Int)
          (((m1.toNat - 48) * 10 + (m2.toNat - 48) : Nat) : Int)
          (((d1.toNat - 48) * 10 + (d2.toNat - 48) : Nat) : Int) 0 0 0)
      else none
    else none
  | _ => none

/-- State of the main window (src/main.go lines 255-324): the shared
currentTime, the picker's internal state, the date label text and the
preview label text. -/
structure AppState where
  currentTime : Int
  picker : Picker
  selectedDateText : String
  previewText : String
deriving DecidableEq

/-- updatePreview (src/main.go lines 278-285): parse the date label with
the error ignored - a failed parse yields the zero time, January 1 of
year 1 - and render the preview from the parsed date and the clock of
currentTime. -/
def updatePreview (st : AppState) : AppState :=
  { st with previewText :=
      (formatPreviewStr
        (tYear ((parseDate st.selectedDateText).getD 0))
        (tMonth ((parseDate st.selectedDateText).getD 0))
        (tDay ((parseDate st.selectedDateText).getD 0))
        (tHour st.currentTime) (tMin st.currentTime) (tSec st.currentTime)) }

/-- A user interaction handled by main. -/
inductive Event where
  | selectDate (cy cmo day : Int)
  | pickHour (v : String)
  | pickMinute (v : String)
  | pickSecond (v : String)
  | setCurrent (now : Int)

/-- One event of the main window (src/main.go lines 288-306): a day-button
tap sets the label and currentTime to the tapped midnight and refreshes the
preview; a dropdown selection runs the picker callback, whose emission
overwrites currentTime and refreshes the preview; the set-current button
overwrites both the label and currentTime. -/
def step (st : AppState) : Event → AppState
  | .selectDate cy cmo day =>
    updatePreview { st with
      selectedDateText := formatDateStr (goTime cy cmo day 0 0 0),
      currentTime := goTime cy cmo day 0 0 0 }
  | .pickHour v =>
    match pickStep st.picker (.hour v) with
    | (p2, some t) => updatePreview { st with picker := p2, currentTime := t }
    | (p2, none) => { st with picker := p2 }
  | .pickMinute v =>
    match pickStep st.picker (.minute v) with
    | (p2, some t) => updatePreview { st with picker := p2, currentTime := t }
    | (p2, none) => { st with picker := p2 }
  | .pickSecond v =>
    match pickStep st.picker (.second v) with
    | (p2, some t) => updatePreview { st with picker := p2, currentTime := t }
    | (p2, none) => { st with picker := p2 }
  | .setCurrent now =>
    updatePreview { st with
      currentTime := now,
      selectedDateText := formatDateStr now }

/-- Initial state of main (src/main.go lines 260-298). -/
def initState (t0 : Int) : AppState :=
  { currentTime := t0
    picker := mkPicker t0
    selectedDateText := formatDateStr t0
    previewText := (formatPreviewStr (tYear t0) (tMonth t0) (tDay t0)
      (tHour t0) (tMin t0) (tSec t0)) }

/-- The three stored picker selections are within their dropdown ranges. -/
def pickerInRange (p : Picker) : Prop :=
  0 ≤ p.hours ∧ p.hours ≤ 23 ∧ 0 ≤ p.minutes ∧ p.minutes ≤ 59 ∧
  0 ≤ p.seconds ∧ p.seconds ≤ 59

/-- A selection string offered by the dropdown the event belongs to. -/
def pickEventValid : PickEvent → Prop
  | .hour v => v ∈ generateRange 0 23
  | .minute v => v ∈ generateRange 0 59
  | .second v => v ∈ generateRange 0 59

/-- A non-numeric dropdown value used to probe the scan-failure path. -/
def badTimeInput : String := "ab"

/-- A concrete hour selection string. -/
def s03 : String := "03"

/-- Unfolding of the boolean leap-year test into a proposition. -/
theorem isLeap_iff (y : Int) :
    isLeap y = true ↔ (y % 4 = 0 ∧ (¬ y % 100 = 0 ∨ y % 400 = 0)) := by
  simp [isLeap]

/-- Structural facts about one 400-year cycle: splitting a day offset
0 <= r < 146097 into century, 4-year and year pieces lands on a year whose
start is 36524 n100 + 1461 n4 + 365 n1 days into the cycle, with a
day-of-year offset below that year's length. -/
theorem yearCycle_core (q r a n100 r1 n4 r2 b n1 y yday : Int)
    (hr0 : 0 ≤ r) (hr146 : r < 146097)
    (ha : a = r / 36524) (hn100 : n100 = a - a / 4)
    (hr1 : r1 = r - 36524 * n100) (hn4 : n4 = r1 / 1461)
    (hr2 : r2 = r1 - 1461 * n4) (hb : b = r2 / 365)
    (hn1 : n1 = b - b / 4)
    (hy : y = 400 * q + 100 * n100 + 4 * n4 + n1 + 1)
    (hyday : yday = r2 - 365 * n1) :
    daysToYear y + yday = 146097 * q + r ∧ 0 ≤ yday ∧ yday < yearLen y := by
  have haS : 36524 * a ≤ r ∧ r < 36524 * (a + 1) ∧ 0 ≤ a ∧ a ≤ 4 := by omega
  clear ha
  have h2 : 0 ≤ n100 ∧ n100 ≤ 3 := by omega
  have h3 : 0 ≤ r1 ∧ r1 ≤ 36524 := by omega
  have h3b : r1 = 36524 → n100 = 3 := by omega
  have hn4S : 1461 * n4 ≤ r1 ∧ r1 < 1461 * (n4 + 1) ∧ 0 ≤ n4 ∧ n4 ≤ 24 := by omega
  clear hn4
  have h4 : 0 ≤ r2 ∧ r2 ≤ 1460 := by omega
  have hbS : 365 * b ≤ r2 ∧ r2 < 365 * (b + 1) ∧ 0 ≤ b ∧ b ≤ 4 := by omega
  clear hb
  have h5 : 0 ≤ n1 ∧ n1 ≤ 3 ∧ 0 ≤ yday ∧ yday ≤ 365 := by omega
  have hdty : daysToYear y = 146097 * q + 36524 * n100 + 1461 * n4 + 365 * n1 := by
    have e4 : (y - 1) / 4 = 100 * q + 25 * n100 + n4 := by omega
    have e100 : (y - 1) / 100 = 4 * q + n100 := by omega
    have e400 : (y - 1) / 400 = q := by omega
    simp only [daysToYear, e4, e100, e400]
    omega
  refine ⟨by omega, by omega, ?_⟩
  rw [yearLen]
  cases hL : isLeap y with
  | false =>
    rw [if_neg (by simp [hL])]
    have hnp : ¬ (y % 4 = 0 ∧ (¬ y % 100 = 0 ∨ y % 400 = 0)) := by
      rw [← isLeap_iff, hL]; simp
    by_cases hyd : yday = 365
    · exfalso
      apply hnp
      clear hnp hdty
      have hr2v : r2 = 1460 ∧ n1 = 3 := by omega
      refine ⟨by omega, ?_⟩
      by_cases hn : n4 = 24
      · right
        have hra : r1 = 36524 := by omega
        have hn3 := h3b hra
        omega
      · left
        omega
    · omega
  | true =>
    rw [if_pos (by simp [hL])]
    omega

/-- The year and day-of-year extraction is exact: the extracted year starts
at or before z and the day-of-year offset is inside that year. -/
theorem yearYday_spec (z : Int) :
    daysToYear (yearYday z).1 + (yearYday z).2 = z ∧
    0 ≤ (yearYday z).2 ∧ (yearYday z).2 < yearLen (yearYday z).1 := by
  obtain ⟨h1, h2, h3⟩ := yearCycle_core (z / 146097) (z % 146097) _ _ _ _ _ _ _ _ _
    (Int.emod_nonneg z (by norm_num)) (Int.emod_lt_of_pos z (by norm_num))
    rfl rfl rfl rfl rfl rfl rfl rfl rfl
  exact ⟨h1.trans (Int.ediv_add_emod z 146097), h2, h3⟩

/-- Days to the start of the next year. -/
theorem daysToYear_succ (y : Int) : daysToYear (y + 1) = daysToYear y + yearLen y := by
  rw [yearLen]
  cases hL : isLeap y with
  | false =>
    have hnp : ¬ (y % 4 = 0 ∧ (¬ y % 100 = 0 ∨ y % 400 = 0)) := by
      rw [← isLeap_iff, hL]; simp
    rw [if_neg (by simp [hL])]
    simp only [daysToYear]
    omega
  | true =>
    have hp : y % 4 = 0 ∧ (¬ y % 100 = 0 ∨ y % 400 = 0) := (isLeap_iff y).mp hL
    rw [if_pos (by simp [hL])]
    simp only [daysToYear]
    omega

/-- daysToYear is monotone. -/
theorem daysToYear_mono {y z : Int} (h : y ≤ z) : daysToYear y ≤ daysToYear z := by
  simp only [daysToYear]
  omega

/-- Every year has at least 365 days. -/
theorem yearLen_ge (y : Int) : 365 ≤ yearLen y := by
  rw [yearLen]; split <;> omega

/-- Uniqueness: the year extraction recovers the year a day offset was
built from. -/
theorem yearYday_eq (y k : Int) (hk0 : 0 ≤ k) (hk : k < yearLen y) :
    yearYday (daysToYear y + k) = (y, k) := by
  obtain ⟨h1, h2, h3⟩ := yearYday_spec (daysToYear y + k)
  have hy : (yearYday (daysToYear y + k)).1 = y := by
    by_contra hne
    rcases lt_or_gt_of_ne hne with hlt | hgt
    · have hm : daysToYear ((yearYday (daysToYear y + k)).1 + 1) ≤ daysToYear y :=
        daysToYear_mono (by omega)
      have hs := daysToYear_succ (yearYday (daysToYear y + k)).1
      omega
    · have hm : daysToYear (y + 1) ≤ daysToYear (yearYday (daysToYear y + k)).1 :=
        daysToYear_mono (by omega)
      have hs := daysToYear_succ y
      have hl := yearLen_ge (yearYday (daysToYear y + k)).1
      omega
  have hk2 : (yearYday (daysToYear y + k)).2 = k := by rw [hy] at h1; omega
  exact Prod.ext hy hk2

set_option maxRecDepth 10000 in
/-- Correctness of the month/day split on each month offset. -/
theorem monthDay_of_offset (leap : Bool) : ∀ m : Nat, m < 13 → ∀ d, d < 32 →
    (1 ≤ m ∧ 1 ≤ d ∧ d ≤ monthLenN leap m) →
    monthDayOfYday leap (daysBefore (m - 1) + leapAdjN leap m + d - 1) = (m, d) := by
  cases leap
  · decide
  · decide

set_option maxRecDepth 10000 in
/-- Validity of the month/day split on every day of the year. -/
theorem monthDay_valid (leap : Bool) : ∀ yd : Nat, yd < 366 →
    (leap = false → yd < 365) →
    1 ≤ (monthDayOfYday leap yd).1 ∧ (monthDayOfYday leap yd).1 ≤ 12 ∧
    1 ≤ (monthDayOfYday leap yd).2 ∧
    (monthDayOfYday leap yd).2 ≤ monthLenN leap (monthDayOfYday leap yd).1 := by
  cases leap
  · decide
  · decide

/-- Every month length is at most 31. -/
theorem monthLenN_le (leap : Bool) (m : Nat) : monthLenN leap m ≤ 31 := by
  rw [monthLenN]
  split
  · split <;> omega
  · split <;> omega

/-- Every month ends within its year. -/
theorem monthEnd_le (leap : Bool) : ∀ m : Nat, m < 13 → 1 ≤ m →
    daysBefore (m - 1) + leapAdjN leap m + monthLenN leap m ≤ (if leap then 366 else 365) := by
  cases leap
  · decide
  · decide

/-- Round trip: reading back the components of a day count built from a
valid (year, month, day) triple returns that triple. -/
theorem civil_roundtrip (y mo d : Int) (h1 : 1 ≤ mo) (h2 : mo ≤ 12)
    (h3 : 1 ≤ d) (h4 : d ≤ monthLenI (isLeap y) mo) :
    civilFromDays (dateToDays y mo d) = (y, mo, d) := by
  have e1 : (mo - 1) / 12 = 0 := by omega
  have e2 : (mo - 1) % 12 = mo - 1 := by omega
  rw [monthLenI] at h4
  have hadj : (if isLeap y && decide (3 ≤ mo - 1 + 1) then (1:Int) else 0)
      = ((leapAdjN (isLeap y) mo.toNat : Nat) : Int) := by
    rw [leapAdjN]
    by_cases h3mo : (3:Int) ≤ mo - 1 + 1
    · have h3n : 3 ≤ mo.toNat := by omega
      cases isLeap y <;> simp [h3mo, h3n] <;> omega
    · have h3n : ¬ 3 ≤ mo.toNat := by omega
      cases isLeap y <;> simp [h3mo, h3n] <;> omega
  have etn : (mo - 1 + 1 - 1).toNat = mo.toNat - 1 := by omega
  have hz : dateToDays y mo d
      = daysToYear y + (((daysBefore (mo.toNat - 1) + leapAdjN (isLeap y) mo.toNat : Nat) : Int) + (d - 1)) := by
    simp only [dateToDays, e1, e2, add_zero, hadj, etn]
    push_cast
    ring
  have hBle := monthEnd_le (isLeap y) mo.toNat (by omega) (by omega)
  have hyl : yearLen y = if isLeap y then 366 else 365 := by rw [yearLen]
  have hK0 : 0 ≤ ((daysBefore (mo.toNat - 1) + leapAdjN (isLeap y) mo.toNat : Nat) : Int) + (d - 1) := by
    omega
  have hBle3 : ((daysBefore (mo.toNat - 1) + leapAdjN (isLeap y) mo.toNat
      + monthLenN (isLeap y) mo.toNat : Nat) : Int) ≤ yearLen y := by
    rw [hyl]
    cases hL : isLeap y <;> rw [hL] at hBle <;> simp at hBle ⊢ <;> omega
  have hKlt : ((daysBefore (mo.toNat - 1) + leapAdjN (isLeap y) mo.toNat : Nat) : Int) + (d - 1)
      < yearLen y := by
    omega
  have hyy := yearYday_eq y _ hK0 hKlt
  rw [← hz] at hyy
  have hmd := monthDay_of_offset (isLeap y) mo.toNat (by omega) d.toNat
    (by have := monthLenN_le (isLeap y) mo.toNat; omega)
    ⟨by omega, by omega, by omega⟩
  have hKtn : ((((daysBefore (mo.toNat - 1) + leapAdjN (isLeap y) mo.toNat : Nat) : Int) + (d - 1))).toNat
      = daysBefore (mo.toNat - 1) + leapAdjN (isLeap y) mo.toNat + d.toNat - 1 := by
    omega
  rw [civilFromDays, hyy]
  simp only
  rw [hKtn, hmd]
  have : ((mo.toNat : Nat) : Int) = mo := by omega
  have hd : ((d.toNat : Nat) : Int) = d := by omega
  simp only [this, hd]

/-- Every year is at most 366 days long. -/
theorem yearLen_le (y : Int) : yearLen y ≤ 366 := by
  rw [yearLen]; split <;> omega

/-- In a non-leap year the length is 365. -/
theorem yearLen_false (y : Int) (hL : isLeap y = false) : yearLen y = 365 := by
  rw [yearLen, hL]; simp

/-- Every month length is at least 28. -/
theorem monthLenN_ge (leap : Bool) (m : Nat) : 28 ≤ monthLenN leap m := by
  rw [monthLenN]
  split
  · split <;> omega
  · split <;> omega

/-- The components read back from any day count form a valid civil date. -/
theorem civil_valid (z : Int) :
    1 ≤ (civilFromDays z).2.1 ∧ (civilFromDays z).2.1 ≤ 12 ∧
    1 ≤ (civilFromDays z).2.2 ∧
    (civilFromDays z).2.2 ≤ monthLenI (isLeap (civilFromDays z).1) (civilFromDays z).2.1 := by
  obtain ⟨h1, h2, h3⟩ := yearYday_spec z
  have hb1 : (yearYday z).2.toNat < 366 := by
    have := yearLen_le (yearYday z).1
    omega
  have hb2 : isLeap (yearYday z).1 = false → (yearYday z).2.toNat < 365 := by
    intro hL
    have := yearLen_false (yearYday z).1 hL
    omega
  have hv := monthDay_valid (isLeap (yearYday z).1) (yearYday z).2.toNat hb1 hb2
  rw [civilFromDays]
  simp only [monthLenI, Int.toNat_natCast]
  omega

/-- Unfolding of dateToDays on an in-range month: no normalization occurs. -/
theorem dateToDays_unfold (y mo d : Int) (h1 : 1 ≤ mo) (h2 : mo ≤ 12) :
    dateToDays y mo d = daysToYear y
      + ((daysBefore (mo.toNat - 1) + leapAdjN (isLeap y) mo.toNat : Nat) : Int) + (d - 1) := by
  have e1 : (mo - 1) / 12 = 0 := by omega
  have e2 : (mo - 1) % 12 = mo - 1 := by omega
  have hadj : (if isLeap y && decide (3 ≤ mo - 1 + 1) then (1:Int) else 0)
      = ((leapAdjN (isLeap y) mo.toNat : Nat) : Int) := by
    rw [leapAdjN]
    by_cases h3mo : (3:Int) ≤ mo - 1 + 1
    · have h3n : 3 ≤ mo.toNat := by omega
      cases isLeap y <;> simp [h3mo, h3n] <;> omega
    · have h3n : ¬ 3 ≤ mo.toNat := by omega
      cases isLeap y <;> simp [h3mo, h3n] <;> omega
  have etn : (mo - 1 + 1 - 1).toNat = mo.toNat - 1 := by omega
  simp only [dateToDays, e1, e2, add_zero, hadj, etn]
  push_cast
  ring

/-- dateToDays is linear in the day argument. -/
theorem dateToDays_day (y mo d : Int) : dateToDays y mo d = dateToDays y mo 1 + (d - 1) := by
  simp only [dateToDays]
  ring

/-- Cumulative table step within a year. -/
theorem daysBefore_succ (leap : Bool) : ∀ m : Nat, m < 12 → 1 ≤ m →
    daysBefore m + leapAdjN leap (m + 1)
      = daysBefore (m - 1) + leapAdjN leap m + monthLenN leap m := by
  cases leap
  · decide
  · decide

/-- The first day of month 13 is the first day of January next year. -/
theorem dateToDays_thirteen (y d : Int) : dateToDays y 13 d = dateToDays (y + 1) 1 d := by
  simp only [dateToDays]
  norm_num

/-- First of the next month is the first of this month plus its length. -/
theorem dateToDays_next_first (y mo : Int) (h1 : 1 ≤ mo) (h2 : mo ≤ 12) :
    dateToDays y (mo + 1) 1 = dateToDays y mo 1 + monthLenI (isLeap y) mo := by
  by_cases h12 : mo = 12
  · subst h12
    norm_num [dateToDays_thirteen]
    rw [dateToDays_unfold (y + 1) 1 1 (by omega) (by omega),
        dateToDays_unfold y 12 1 (by omega) (by omega)]
    have h13 : daysToYear (y + 1) = daysToYear y + yearLen y := daysToYear_succ y
    have hyl : yearLen y = if isLeap y then 366 else 365 := by rw [yearLen]
    rw [monthLenI]
    cases hL : isLeap y <;>
      simp_all [leapAdjN, daysBefore, monthLenN] <;> omega
  · rw [dateToDays_unfold y (mo + 1) 1 (by omega) (by omega),
        dateToDays_unfold y mo 1 (by omega) (by omega)]
    have hstep := daysBefore_succ (isLeap y) mo.toNat (by omega) (by omega)
    have e1 : (mo + 1).toNat - 1 = mo.toNat := by omega
    have e2 : (mo + 1).toNat = mo.toNat + 1 := by omega
    rw [monthLenI, e1, e2]
    omega

/-- For an in-range month the day count of the month agrees with the
reference table. -/
theorem daysInMonth_eq (y mo : Int) (h1 : 1 ≤ mo) (h2 : mo ≤ 12) :
    daysInMonth y mo = monthLenI (isLeap y) mo := by
  have hml1 : (1 : Int) ≤ monthLenI (isLeap y) mo := by
    rw [monthLenI]
    have := monthLenN_ge (isLeap y) mo.toNat
    omega
  have hfirst : civilFromDays (firstOfMonth y mo) = (y, mo, 1) :=
    civil_roundtrip y mo 1 h1 h2 (by omega) hml1
  have hlast : lastOfMonth y mo = dateToDays y mo (monthLenI (isLeap y) mo) := by
    rw [lastOfMonth, addDateDays, hfirst]
    simp only [add_zero]
    rw [dateToDays_day y (mo + 1) (1 + -1), dateToDays_next_first y mo h1 h2,
        dateToDays_day y mo (monthLenI (isLeap y) mo)]
    ring
  rw [daysInMonth, hlast,
      civil_roundtrip y mo (monthLenI (isLeap y) mo) h1 h2 hml1 le_rfl]

/-- On an in-range month every day button's highlight flag reduces to a
plain comparison of the displayed (year, month, day) with today. -/
theorem buildCells_eq (cy cmo ty tmo td : Int) (h1 : 1 ≤ cmo) (h2 : cmo ≤ 12) :
    buildCells cy cmo ty tmo td
      = List.replicate (firstDayWeekday cy cmo).toNat Cell.blank ++
        (List.range (daysInMonth cy cmo).toNat).map (fun (i : Nat) =>
          Cell.day (i + 1)
            (decide (cy = ty) && decide (cmo = tmo) && decide ((i : Int) + 1 = td))) := by
  unfold buildCells
  congr 1
  apply List.map_congr_left
  intro i hi
  rw [List.mem_range] at hi
  have hd1 : (1 : Int) ≤ (i : Int) + 1 := by omega
  have hd2 : (i : Int) + 1 ≤ monthLenI (isLeap cy) cmo := by
    have := daysInMonth_eq cy cmo h1 h2
    have hml := monthLenN_ge (isLeap cy) cmo.toNat
    rw [monthLenI] at this ⊢
    omega
  rw [civil_roundtrip cy cmo ((i : Int) + 1) h1 h2 hd1 hd2]
  simp [Bool.beq_eq_decide_eq]

/-- Blanks contribute no highlighted cells. -/
theorem countToday_replicate_blank (n : Nat) :
    (List.replicate n Cell.blank).countP cellIsToday = 0 := by
  induction n with
  | zero => simp
  | succ n ih => rw [List.replicate_succ, List.countP_cons]; simp [ih, cellIsToday]

/-- Counting a single hit over an initial segment of the naturals. -/
theorem countP_range_decideEq (n k : Nat) :
    (List.range n).countP (fun i => decide (i = k)) = if k < n then 1 else 0 := by
  induction n with
  | zero => simp
  | succ n ih =>
    rw [List.range_succ, List.countP_append, ih, List.countP_cons]
    simp only [List.countP_nil, decide_eq_true_eq, Nat.zero_add]
    by_cases h : n = k
    · subst h
      rw [if_neg (by omega), if_pos rfl, if_pos (by omega)]
    · rw [if_neg h]
      by_cases h2 : k < n
      · rw [if_pos h2, if_pos (by omega)]
      · rw [if_neg h2, if_neg (by omega)]

/-- The grid length is the weekday offset plus the day count. -/
theorem buildCells_length (cy cmo ty tmo td : Int) :
    (buildCells cy cmo ty tmo td).length
      = (firstDayWeekday cy cmo).toNat + (daysInMonth cy cmo).toNat := by
  simp [buildCells]

/-- Cells before the weekday offset are blank. -/
theorem buildCells_get_blank (cy cmo ty tmo td : Int) (i : Nat)
    (hi : i < (buildCells cy cmo ty tmo td).length)
    (hlt : i < (firstDayWeekday cy cmo).toNat) :
    (buildCells cy cmo ty tmo td)[i] = Cell.blank := by
  simp only [buildCells]
  rw [List.getElem_append_left (by simpa using hlt), List.getElem_replicate]

/-- Cells after the weekday offset are day buttons in ascending day order. -/
theorem buildCells_get_day (cy cmo ty tmo td : Int) (i : Nat)
    (hi : i < (buildCells cy cmo ty tmo td).length)
    (hge : (firstDayWeekday cy cmo).toNat ≤ i) :
    (buildCells cy cmo ty tmo td)[i]
      = Cell.day (i - (firstDayWeekday cy cmo).toNat + 1)
        ((civilFromDays (dateToDays cy cmo
            ((↑(i - (firstDayWeekday cy cmo).toNat) : Int) + 1))).1 == ty &&
          (civilFromDays (dateToDays cy cmo
            ((↑(i - (firstDayWeekday cy cmo).toNat) : Int) + 1))).2.1 == tmo &&
          (civilFromDays (dateToDays cy cmo
            ((↑(i - (firstDayWeekday cy cmo).toNat) : Int) + 1))).2.2 == td) := by
  rw [buildCells_length] at hi
  simp only [buildCells]
  rw [List.getElem_append_right (by simpa using hge)]
  simp only [List.getElem_map, List.getElem_range, List.length_replicate]

/-- Count of highlighted cells: one when today lies in the displayed
month, zero otherwise. -/
theorem countToday_buildCells (cy cmo ty tmo td : Int)
    (h1 : 1 ≤ cmo) (h2 : cmo ≤ 12)
    (hv3 : 1 ≤ td) (hv4 : td ≤ monthLenI (isLeap ty) tmo) :
    countToday (buildCells cy cmo ty tmo td) = if ty = cy ∧ tmo = cmo then 1 else 0 := by
  rw [countToday, buildCells_eq cy cmo ty tmo td h1 h2, List.countP_append,
      countToday_replicate_blank, List.countP_map, Nat.zero_add]
  by_cases hin : ty = cy ∧ tmo = cmo
  · rw [if_pos hin]
    obtain ⟨e1, e2⟩ := hin
    subst e1
    subst e2
    have hcongr : ∀ i ∈ List.range (daysInMonth ty tmo).toNat,
        ((cellIsToday ∘ fun (i : Nat) => Cell.day (i + 1)
          (decide (ty = ty) && decide (tmo = tmo) && decide ((i : Int) + 1 = td))) i = true
          ↔ (fun i => decide (i = (td - 1).toNat)) i = true) := by
      intro i hmem
      simp only [Function.comp, cellIsToday, decide_eq_true_eq, decide_True, Bool.true_and]
      omega
    rw [List.countP_congr hcongr, countP_range_decideEq,
        if_pos (by rw [daysInMonth_eq ty tmo h1 h2]; omega)]
  · rw [if_neg hin]
    apply List.countP_eq_zero.mpr
    intro a ha
    simp only [Function.comp, cellIsToday, Bool.and_eq_true, decide_eq_true_eq]
    intro hcon
    exact hin ⟨hcon.1.1.symm, hcon.1.2.symm⟩

/-- The highlight-stripped grid does not depend on today at all. -/
theorem buildCells_erase (cy cmo ta1 ta2 ta3 tb1 tb2 tb3 : Int) :
    (buildCells cy cmo ta1 ta2 ta3).map eraseToday
      = (buildCells cy cmo tb1 tb2 tb3).map eraseToday := by
  simp only [buildCells, List.map_append, List.map_replicate, List.map_map]
  have he : ∀ (u v w : Int), (eraseToday ∘ fun (i : Nat) => Cell.day (i + 1)
      ((civilFromDays (dateToDays cy cmo ((i : Int) + 1))).1 == u &&
        (civilFromDays (dateToDays cy cmo ((i : Int) + 1))).2.1 == v &&
        (civilFromDays (dateToDays cy cmo ((i : Int) + 1))).2.2 == w))
      = fun (i : Nat) => Cell.day (i + 1) false := by
    intro u v w
    funext i
    simp [Function.comp, eraseToday]
  rw [he, he]

/-- The weekday offset is a value in 0..6. -/
theorem firstDayWeekday_bounds (cy cmo : Int) :
    0 ≤ firstDayWeekday cy cmo ∧ firstDayWeekday cy cmo < 7 := by
  rw [firstDayWeekday, weekdayOfDays]
  constructor
  · exact Int.emod_nonneg _ (by norm_num)
  · exact Int.emod_lt_of_pos _ (by norm_num)

/-- Pointwise highlight characterization: a cell is highlighted exactly
when today is in the displayed month and the cell is today's day. -/
theorem buildCells_today_iff (cy cmo ty tmo td : Int)
    (h1 : 1 ≤ cmo) (h2 : cmo ≤ 12)
    (hv3 : 1 ≤ td) (hv4 : td ≤ monthLenI (isLeap ty) tmo) :
    ∀ i, ∀ hi : i < (buildCells cy cmo ty tmo td).length,
      (cellIsToday ((buildCells cy cmo ty tmo td)[i]) = true
        ↔ (ty = cy ∧ tmo = cmo ∧ (i : Int) = firstDayWeekday cy cmo + td - 1)) := by
  intro i hi
  obtain ⟨hw0, hw7⟩ := firstDayWeekday_bounds cy cmo
  by_cases hlt : i < (firstDayWeekday cy cmo).toNat
  · rw [buildCells_get_blank cy cmo ty tmo td i hi hlt]
    simp only [cellIsToday, Bool.false_eq_true, false_iff]
    omega
  · push_neg at hlt
    rw [buildCells_get_day cy cmo ty tmo td i hi hlt]
    have hlen := buildCells_length cy cmo ty tmo td
    have hdim := daysInMonth_eq cy cmo h1 h2
    have hd2 : (↑(i - (firstDayWeekday cy cmo).toNat) : Int) + 1 ≤ monthLenI (isLeap cy) cmo := by
      rw [hlen, hdim] at hi
      omega
    rw [civil_roundtrip cy cmo _ h1 h2 (by omega) hd2]
    simp only [cellIsToday, Bool.and_eq_true, beq_iff_eq]
    omega

/-- Month zero rolls back into December of the previous year. -/
theorem dateToDays_zero (y d : Int) : dateToDays y 0 d = dateToDays (y - 1) 12 d := by
  have e1 : ((0:Int) - 1) / 12 = -1 := by decide
  have e2 : ((0:Int) - 1) % 12 = 11 := by decide
  have e3 : ((12:Int) - 1) / 12 = 0 := by decide
  have e4 : ((12:Int) - 1) % 12 = 11 := by decide
  simp only [dateToDays, e1, e2, e3, e4, add_zero]
  rw [show y + -1 = y - 1 by ring]

/-- The digit accumulation is fuel-irrelevant once the fuel dominates the
number. -/
theorem decDigitsAux_congr : ∀ f1 : Nat, ∀ f2 n : Nat, n ≤ f1 → n ≤ f2 →
    decDigitsAux f1 n = decDigitsAux f2 n := by
  intro f1
  induction f1 with
  | zero =>
    intro f2 n h1 h2
    obtain rfl : n = 0 := by omega
    cases f2 with
    | zero => rfl
    | succ f2 => simp [decDigitsAux]
  | succ f1 ih =>
    intro f2 n h1 h2
    cases f2 with
    | zero =>
      obtain rfl : n = 0 := by omega
      simp [decDigitsAux]
    | succ f2 =>
      by_cases hn : n < 10
      · simp [decDigitsAux, hn]
      · simp only [decDigitsAux, if_neg hn]
        rw [ih f2 (n / 10) (by omega) (by omega)]

/-- Digits of a one-digit number. -/
theorem decDigits_lt10 (m : Nat) (h : m < 10) : decDigits m = [digitChar m] := by
  rw [decDigits]
  cases m with
  | zero => rfl
  | succ k => simp [decDigitsAux, h]

/-- One unfolding step of the digit accumulation. -/
theorem decDigitsAux_succ (k n : Nat) (h : ¬ n < 10) :
    decDigitsAux (k + 1) n = decDigitsAux k (n / 10) ++ [digitChar n] := by
  rw [decDigitsAux, if_neg h]

/-- Digit recursion for numbers of two or more digits. -/
theorem decDigits_ge10 (m : Nat) (h : 10 ≤ m) :
    decDigits m = decDigits (m / 10) ++ [digitChar m] := by
  obtain ⟨k, rfl⟩ : ∃ k, m = k + 1 := ⟨m - 1, by omega⟩
  rw [decDigits, decDigits, decDigitsAux_succ k (k + 1) (by omega),
      decDigitsAux_congr k ((k + 1) / 10) ((k + 1) / 10) (by omega) (by omega)]

/-- Two-digit zero-padded rendering agrees with positional digits. -/
theorem pad2_eq (m : Nat) (hm : m < 100) : padZeros 2 (decDigits m) = specPad2 m := by
  rw [specPad2]
  by_cases h1 : m < 10
  · rw [decDigits_lt10 m h1, show m / 10 = 0 by omega]
    rfl
  · rw [decDigits_ge10 m (by omega), decDigits_lt10 (m / 10) (by omega)]
    rfl

/-- Four-digit zero-padded rendering agrees with positional digits. -/
theorem pad4_eq (m : Nat) (hm : m < 10000) : padZeros 4 (decDigits m) = specPad4 m := by
  rw [specPad4]
  by_cases h1 : m < 10
  · rw [decDigits_lt10 m h1, show m / 10 = 0 by omega, show m / 100 = 0 by omega,
      show m / 1000 = 0 by omega]
    rfl
  · by_cases h2 : m < 100
    · rw [decDigits_ge10 m (by omega), decDigits_lt10 (m / 10) (by omega),
        show m / 100 = 0 by omega, show m / 1000 = 0 by omega]
      rfl
    · by_cases h3 : m < 1000
      · rw [decDigits_ge10 m (by omega), decDigits_ge10 (m / 10) (by omega),
          decDigits_lt10 (m / 10 / 10) (by omega), show m / 10 / 10 = m / 100 by omega,
          show m / 1000 = 0 by omega]
        rfl
      · rw [decDigits_ge10 m (by omega), decDigits_ge10 (m / 10) (by omega),
          decDigits_ge10 (m / 10 / 10) (by omega),
          decDigits_lt10 (m / 10 / 10 / 10) (by omega),
          show m / 10 / 10 / 10 = m / 1000 by omega, show m / 10 / 10 = m / 100 by omega]
        rfl

/-- Clock components are always in range. -/
theorem tClock_bounds (t : Int) :
    0 ≤ tHour t ∧ tHour t ≤ 23 ∧ 0 ≤ tMin t ∧ tMin t ≤ 59 ∧
    0 ≤ tSec t ∧ tSec t ≤ 59 := by
  simp only [tHour, tMin, tSec]
  omega

/-- A time built from a date and an in-range clock sits inside that date's
day. -/
theorem goTime_div (y mo d h mi s : Int) (hh : 0 ≤ h ∧ h ≤ 23)
    (hmi : 0 ≤ mi ∧ mi ≤ 59) (hs : 0 ≤ s ∧ s ≤ 59) :
    goTime y mo d h mi s / 86400 = dateToDays y mo d := by
  rw [goTime]
  omega

/-- A freshly created picker is in range. -/
theorem mkPicker_inRange (t : Int) : pickerInRange (mkPicker t) := by
  have := tClock_bounds t
  simp only [pickerInRange, mkPicker]
  exact this

/-- updateTime keeps the creation date: the emitted time's year, month and
day are those of the captured creation time. -/
theorem pickerTime_date (p : Picker) (hr : pickerInRange p) :
    tYear (pickerTime p) = tYear p.t0 ∧ tMonth (pickerTime p) = tMonth p.t0 ∧
    tDay (pickerTime p) = tDay p.t0 := by
  have hv := civil_valid (p.t0 / 86400)
  have hdiv : pickerTime p / 86400 = dateToDays (tYear p.t0) (tMonth p.t0) (tDay p.t0) := by
    rw [pickerTime]
    exact goTime_div _ _ _ _ _ _ ⟨hr.1, hr.2.1⟩ ⟨hr.2.2.1, hr.2.2.2.1⟩
      ⟨hr.2.2.2.2.1, hr.2.2.2.2.2⟩
  have hrt := civil_roundtrip (tYear p.t0) (tMonth p.t0) (tDay p.t0)
    hv.1 hv.2.1 hv.2.2.1 hv.2.2.2
  rw [tYear, tMonth, tDay, hdiv, hrt]
  exact ⟨rfl, rfl, rfl⟩

/-- Scanning any hour dropdown option yields a value in 0..23. -/
theorem genRange_hour_bounds :
    ∀ s ∈ generateRange 0 23, 0 ≤ (sscanfD s).getD 0 ∧ (sscanfD s).getD 0 ≤ 23 := by
  decide

/-- Scanning any minute or second dropdown option yields a value in 0..59. -/
theorem genRange_minsec_bounds :
    ∀ s ∈ generateRange 0 59, 0 ≤ (sscanfD s).getD 0 ∧ (sscanfD s).getD 0 ≤ 59 := by
  decide

/-- One valid selection keeps the picker in range, never touches the
captured creation time, and only emits times carrying its date. -/
theorem pickStep_inv (p : Picker) (e : PickEvent) (hr : pickerInRange p)
    (hv : pickEventValid e) :
    pickerInRange (pickStep p e).1 ∧ (pickStep p e).1.t0 = p.t0 ∧
    (∀ t, (pickStep p e).2 = some t →
      tYear t = tYear p.t0 ∧ tMonth t = tMonth p.t0 ∧ tDay t = tDay p.t0) := by
  obtain ⟨hr1, hr2, hr3, hr4, hr5, hr6⟩ := hr
  cases e with
  | hour v =>
    by_cases hve : v = ""
    · rw [show pickStep p (.hour v) = (p, none) from by
        rw [pickStep, if_neg (by simp [hve])]]
      exact ⟨⟨hr1, hr2, hr3, hr4, hr5, hr6⟩, rfl, by intro t ht; cases ht⟩
    · have hb := genRange_hour_bounds v hv
      rw [show pickStep p (.hour v)
          = ({ p with hours := (sscanfD v).getD 0 },
              some (pickerTime { p with hours := (sscanfD v).getD 0 })) from by
        rw [pickStep, if_pos hve]]
      refine ⟨⟨hb.1, hb.2, hr3, hr4, hr5, hr6⟩, rfl, ?_⟩
      intro t ht
      injection ht with h2
      subst h2
      exact pickerTime_date _ ⟨hb.1, hb.2, hr3, hr4, hr5, hr6⟩
  | minute v =>
    by_cases hve : v = ""
    · rw [show pickStep p (.minute v) = (p, none) from by
        rw [pickStep, if_neg (by simp [hve])]]
      exact ⟨⟨hr1, hr2, hr3, hr4, hr5, hr6⟩, rfl, by intro t ht; cases ht⟩
    · have hb := genRange_minsec_bounds v hv
      rw [show pickStep p (.minute v)
          = ({ p with minutes := (sscanfD v).getD 0 },
              some (pickerTime { p with minutes := (sscanfD v).getD 0 })) from by
        rw [pickStep, if_pos hve]]
      refine ⟨⟨hr1, hr2, hb.1, hb.2, hr5, hr6⟩, rfl, ?_⟩
      intro t ht
      injection ht with h2
      subst h2
      exact pickerTime_date _ ⟨hr1, hr2, hb.1, hb.2, hr5, hr6⟩
  | second v =>
    by_cases hve : v = ""
    · rw [show pickStep p (.second v) = (p, none) from by
        rw [pickStep, if_neg (by simp [hve])]]
      exact ⟨⟨hr1, hr2, hr3, hr4, hr5, hr6⟩, rfl, by intro t ht; cases ht⟩
    · have hb := genRange_minsec_bounds v hv
      rw [show pickStep p (.second v)
          = ({ p with seconds := (sscanfD v).getD 0 },
              some (pickerTime { p with seconds := (sscanfD v).getD 0 })) from by
        rw [pickStep, if_pos hve]]
      refine ⟨⟨hr1, hr2, hr3, hr4, hb.1, hb.2⟩, rfl, ?_⟩
      intro t ht
      injection ht with h2
      subst h2
      exact pickerTime_date _ ⟨hr1, hr2, hr3, hr4, hb.1, hb.2⟩

/-- Every emission of a valid selection sequence carries the creation
date. -/
theorem pickRun_fixed (evs : List PickEvent) : ∀ p : Picker, pickerInRange p →
    (∀ e ∈ evs, pickEventValid e) →
    ∀ t ∈ (pickRun p evs).2,
      tYear t = tYear p.t0 ∧ tMonth t = tMonth p.t0 ∧ tDay t = tDay p.t0 := by
  induction evs with
  | nil =>
    intro p _ _ t ht
    simp [pickRun] at ht
  | cons e es ih =>
    intro p hr hval t ht
    obtain ⟨hr2, ht0, hem⟩ := pickStep_inv p e hr (hval e (by simp))
    simp only [pickRun, List.mem_append] at ht
    rcases ht with ht | ht
    · cases hstep : (pickStep p e).2 with
      | none => rw [hstep] at ht; simp at ht
      | some t2 =>
        rw [hstep] at ht
        simp at ht
        subst ht
        exact hem _ hstep
    · have := ih (pickStep p e).1 hr2 (fun e2 he2 => hval e2 (by simp [he2])) t ht
      rw [ht0] at this
      exact this

/-- C1: for every year and every month in 1..12 the grid built for
(year, month) is exactly firstDayWeekday(year, month) leading blank cells
(a value in 0..6, Sunday first) followed by day cells for days
1..daysInMonth(year, month) in ascending order, so the total length is
firstDayWeekday(year, month) + daysInMonth(year, month). -/
theorem c1_grid_structure (cy cmo ty tmo td : Int) (h1 : 1 ≤ cmo) (h2 : cmo ≤ 12) :
    (buildCells cy cmo ty tmo td).length
        = (firstDayWeekday cy cmo).toNat + (daysInMonth cy cmo).toNat ∧
    0 ≤ firstDayWeekday cy cmo ∧ firstDayWeekday cy cmo < 7 ∧
    (∀ i, ∀ hi : i < (buildCells cy cmo ty tmo td).length,
      if i < (firstDayWeekday cy cmo).toNat
      then (buildCells cy cmo ty tmo td)[i] = Cell.blank
      else ∃ b, (buildCells cy cmo ty tmo td)[i]
          = Cell.day (i - (firstDayWeekday cy cmo).toNat + 1) b) := by
  obtain ⟨hw0, hw7⟩ := firstDayWeekday_bounds cy cmo
  refine ⟨buildCells_length cy cmo ty tmo td, hw0, hw7, ?_⟩
  intro i hi
  by_cases hlt : i < (firstDayWeekday cy cmo).toNat
  · rw [if_pos hlt]
    exact buildCells_get_blank cy cmo ty tmo td i hi hlt
  · rw [if_neg hlt]
    exact ⟨_, buildCells_get_day cy cmo ty tmo td i hi (by omega)⟩

/-- Witness for C1 at the spec's own example month, February 2024:
4 leading blanks (2024-02-01 is a Thursday) plus 29 day cells. -/
theorem c1_grid_structure_witness :
    (buildCells 2024 2 2024 2 15).length = 4 + 29 := by
  have h := c1_grid_structure 2024 2 2024 2 15 (by norm_num) (by norm_num)
  rw [h.1]
  decide

/-- C2: the day-count computation follows the proleptic Gregorian leap
rule, in general and on the four sample years. -/
theorem c2_leap_rule :
    (∀ y : Int, daysInMonth y 2
      = if y % 4 = 0 ∧ (¬ y % 100 = 0 ∨ y % 400 = 0) then 29 else 28) ∧
    daysInMonth 2024 2 = 29 ∧ daysInMonth 2023 2 = 28 ∧
    daysInMonth 2000 2 = 29 ∧ daysInMonth 1900 2 = 28 := by
  refine ⟨?_, by decide, by decide, by decide, by decide⟩
  intro y
  rw [daysInMonth_eq y 2 (by norm_num) (by norm_num), monthLenI]
  cases hL : isLeap y with
  | false =>
    have hnp : ¬ (y % 4 = 0 ∧ (¬ y % 100 = 0 ∨ y % 400 = 0)) := by
      rw [← isLeap_iff, hL]; simp
    rw [if_neg hnp]
    decide
  | true =>
    rw [if_pos ((isLeap_iff y).mp hL)]
    decide

/-- C3: when today's valid date (ty, tmo, td) lies in the displayed
(year, month), exactly one cell is highlighted, namely the cell of day td;
otherwise no cell is highlighted. -/
theorem c3_today_highlight (cy cmo ty tmo td : Int)
    (h1 : 1 ≤ cmo) (h2 : cmo ≤ 12)
    (hv1 : 1 ≤ tmo) (hv2 : tmo ≤ 12) (hv3 : 1 ≤ td)
    (hv4 : td ≤ monthLenI (isLeap ty) tmo) :
    countToday (buildCells cy cmo ty tmo td) = (if ty = cy ∧ tmo = cmo then 1 else 0) ∧
    (∀ i, ∀ hi : i < (buildCells cy cmo ty tmo td).length,
      (cellIsToday ((buildCells cy cmo ty tmo td)[i]) = true
        ↔ (ty = cy ∧ tmo = cmo ∧ (i : Int) = firstDayWeekday cy cmo + td - 1))) :=
  ⟨countToday_buildCells cy cmo ty tmo td h1 h2 hv3 hv4,
    buildCells_today_iff cy cmo ty tmo td h1 h2 hv3 hv4⟩

/-- Witness for C3: February 2024 viewed on 2024-02-15 highlights exactly
one cell; viewed from 2024-03-15 it highlights none. -/
theorem c3_today_highlight_witness :
    countToday (buildCells 2024 2 2024 2 15) = 1 ∧
    countToday (buildCells 2024 2 2024 3 15) = 0 := by
  constructor
  · have h := (c3_today_highlight 2024 2 2024 2 15 (by norm_num) (by norm_num)
      (by norm_num) (by norm_num) (by norm_num) (by decide)).1
    rw [h, if_pos ⟨rfl, rfl⟩]
  · have h := (c3_today_highlight 2024 2 2024 3 15 (by norm_num) (by norm_num)
      (by norm_num) (by norm_num) (by norm_num) (by decide)).1
    rw [h, if_neg (by norm_num)]

/-- C4 counterexample: the builder has no error path at all - a month of
13 or 0 is silently normalized by time.Date, so the grid built for
(2024, 13) is the January 2025 grid and the grid for (2024, 0) is the
December 2023 grid. -/
theorem c4_counterexample :
    buildCells 2024 13 2024 5 10 = buildCells 2025 1 2024 5 10 ∧
    buildCells 2024 0 2024 5 10 = buildCells 2023 12 2024 5 10 := by
  decide

/-- C4 amended: building the grid with month 13 or month 0 does not fail;
the month is silently normalized, rolling into January of the next year
respectively December of the previous year. -/
theorem c4_amended (y ty tmo td : Int) :
    buildCells y 13 ty tmo td = buildCells (y + 1) 1 ty tmo td ∧
    buildCells y 0 ty tmo td = buildCells (y - 1) 12 ty tmo td := by
  constructor
  · simp only [buildCells, firstDayWeekday, daysInMonth, lastOfMonth, firstOfMonth,
      addDateDays, weekdayOfDays, dateToDays_thirteen]
  · simp only [buildCells, firstDayWeekday, daysInMonth, lastOfMonth, firstOfMonth,
      addDateDays, weekdayOfDays, dateToDays_zero]

/-- C5: navigating to the next month from December 2024 lands in January
2025, and to the previous month from January 2024 lands in December 2023,
whatever the day of month of the current time. -/
theorem c5_navigation (d : Int) (h1 : 1 ≤ d) (h2 : d ≤ 31) :
    (civilFromDays (nextMonthNav (dateToDays 2024 12 d))).1 = 2025 ∧
    (civilFromDays (nextMonthNav (dateToDays 2024 12 d))).2.1 = 1 ∧
    (civilFromDays (prevMonthNav (dateToDays 2024 1 d))).1 = 2023 ∧
    (civilFromDays (prevMonthNav (dateToDays 2024 1 d))).2.1 = 12 := by
  have hc1 : civilFromDays (dateToDays 2024 12 d) = (2024, 12, d) :=
    civil_roundtrip 2024 12 d (by norm_num) (by norm_num) h1
      (by rw [show monthLenI (isLeap 2024) 12 = 31 from by decide]; exact h2)
  have hc2 : civilFromDays (dateToDays 2024 1 d) = (2024, 1, d) :=
    civil_roundtrip 2024 1 d (by norm_num) (by norm_num) h1
      (by rw [show monthLenI (isLeap 2024) 1 = 31 from by decide]; exact h2)
  have hnext : nextMonthNav (dateToDays 2024 12 d) = dateToDays 2025 1 d := by
    rw [nextMonthNav, addDateDays, hc1]
    norm_num [dateToDays_thirteen]
  have hprev : prevMonthNav (dateToDays 2024 1 d) = dateToDays 2023 12 d := by
    rw [prevMonthNav, addDateDays, hc2]
    norm_num [dateToDays_zero]
  rw [hnext, hprev,
    civil_roundtrip 2025 1 d (by norm_num) (by norm_num) h1
      (by rw [show monthLenI (isLeap 2025) 1 = 31 from by decide]; exact h2),
    civil_roundtrip 2023 12 d (by norm_num) (by norm_num) h1
      (by rw [show monthLenI (isLeap 2023) 12 = 31 from by decide]; exact h2)]
  exact ⟨rfl, rfl, rfl, rfl⟩

/-- Witness for C5 at day 15. -/
theorem c5_navigation_witness :
    (civilFromDays (nextMonthNav (dateToDays 2024 12 15))).1 = 2025 ∧
    (civilFromDays (nextMonthNav (dateToDays 2024 12 15))).2.1 = 1 ∧
    (civilFromDays (prevMonthNav (dateToDays 2024 1 15))).1 = 2023 ∧
    (civilFromDays (prevMonthNav (dateToDays 2024 1 15))).2.1 = 12 :=
  c5_navigation 15 (by norm_num) (by norm_num)

/-- A nonnegative field is printed without a sign. -/
theorem goPadL_nonneg (w : Nat) (n : Int) (h : 0 ≤ n) :
    goPadL w n = padZeros w (decDigits n.toNat) := by
  rw [goPadL, if_neg (by omega)]

/-- C6: for in-range components the preview renders as the zero-padded
decimal string YYYY-MM-DD HH:MM:SS with a four-digit year and two-digit
month, day, hour, minute and second. -/
theorem c6_preview_format (y mo d h mi s : Int)
    (hy : 0 ≤ y ∧ y ≤ 9999) (hmo : 1 ≤ mo ∧ mo ≤ 12) (hd : 1 ≤ d ∧ d ≤ 31)
    (hh : 0 ≤ h ∧ h ≤ 23) (hmi : 0 ≤ mi ∧ mi ≤ 59) (hs : 0 ≤ s ∧ s ≤ 59) :
    formatPreviewStr y mo d h mi s
      = specPreview y.toNat mo.toNat d.toNat h.toNat mi.toNat s.toNat := by
  rw [formatPreviewStr, formatPreviewL, specPreview,
    goPadL_nonneg 4 y hy.1, goPadL_nonneg 2 mo (by omega), goPadL_nonneg 2 d (by omega),
    goPadL_nonneg 2 h hh.1, goPadL_nonneg 2 mi hmi.1, goPadL_nonneg 2 s hs.1,
    pad4_eq y.toNat (by omega), pad2_eq mo.toNat (by omega), pad2_eq d.toNat (by omega),
    pad2_eq h.toNat (by omega), pad2_eq mi.toNat (by omega), pad2_eq s.toNat (by omega)]

/-- Witness for C6 at 2024-05-20 03:08:09. -/
theorem c6_preview_format_witness :
    formatPreviewStr 2024 5 20 3 8 9 = specPreview 2024 5 20 3 8 9 ∧
    formatPreviewStr 2024 5 20 3 8 9 = "2024-05-20 03:08:09" :=
  ⟨c6_preview_format 2024 5 20 3 8 9 (by norm_num) (by norm_num) (by norm_num)
    (by norm_num) (by norm_num) (by norm_num), by decide⟩

/-- C7 counterexample: on the unparsable value ab the hour callback does
not keep the previous hour 5 - Sscanf leaves the freshly declared variable
at zero, the stored hours become 0, updateTime still runs, and the preview
is re-rendered with hour 00. -/
theorem c7_counterexample :
    sscanfD badTimeInput = none ∧
    hourSelectCallback 5 badTimeInput = (0, true) ∧
    ¬ hourSelectCallback 5 badTimeInput = (5, false) ∧
    (step (initState (goTime 2024 5 10 7 8 9)) (Event.pickHour badTimeInput)).previewText
      = "2024-05-10 00:08:09" ∧
    (initState (goTime 2024 5 10 7 8 9)).previewText = "2024-05-10 07:08:09" := by
  decide

/-- C7 amended: only the empty callback value retains the previous value
and skips the preview update; a non-empty value that fails to parse resets
the component to 0 and still triggers the update (in the UI the dropdown
only ever supplies its own two-digit options, so the failure path is
unreachable there). -/
theorem c7_amended (hours : Int) (v : String) :
    hourSelectCallback hours v
      = if v = "" then (hours, false) else ((sscanfD v).getD 0, true) := by
  rw [hourSelectCallback]
  by_cases hv : v = ""
  · simp [hv]
  · simp [hv]

/-- The date carried by a tapped day button is a midnight time. -/
theorem goTime_clock0 (y mo d : Int) :
    tHour (goTime y mo d 0 0 0) = 0 ∧ tMin (goTime y mo d 0 0 0) = 0 ∧
    tSec (goTime y mo d 0 0 0) = 0 := by
  simp only [tHour, tMin, tSec, goTime]
  omega

/-- C8 amended: selecting a date re-renders the preview with the clock
reset to 00:00:00 (the tapped day carries midnight and overwrites
currentTime), while selecting a time component leaves the date label - and
hence the date fields of the preview - unchanged. -/
theorem c8_amended (st : AppState) :
    (∀ cy cmo day : Int,
      (step st (.selectDate cy cmo day)).previewText
        = formatPreviewStr
            (tYear ((parseDate (step st (.selectDate cy cmo day)).selectedDateText).getD 0))
            (tMonth ((parseDate (step st (.selectDate cy cmo day)).selectedDateText).getD 0))
            (tDay ((parseDate (step st (.selectDate cy cmo day)).selectedDateText).getD 0))
            0 0 0) ∧
    (∀ v : String, ¬ v = "" →
      ((step st (.pickHour v)).selectedDateText = st.selectedDateText ∧
        (step st (.pickHour v)).previewText
          = formatPreviewStr
              (tYear ((parseDate st.selectedDateText).getD 0))
              (tMonth ((parseDate st.selectedDateText).getD 0))
              (tDay ((parseDate st.selectedDateText).getD 0))
              (tHour (step st (.pickHour v)).currentTime)
              (tMin (step st (.pickHour v)).currentTime)
              (tSec (step st (.pickHour v)).currentTime))) ∧
    (∀ v : String, ¬ v = "" →
      ((step st (.pickMinute v)).selectedDateText = st.selectedDateText ∧
        (step st (.pickMinute v)).previewText
          = formatPreviewStr
              (tYear ((parseDate st.selectedDateText).getD 0))
              (tMonth ((parseDate st.selectedDateText).getD 0))
              (tDay ((parseDate st.selectedDateText).getD 0))
              (tHour (step st (.pickMinute v)).currentTime)
              (tMin (step st (.pickMinute v)).currentTime)
              (tSec (step st (.pickMinute v)).currentTime))) ∧
    (∀ v : String, ¬ v = "" →
      ((step st (.pickSecond v)).selectedDateText = st.selectedDateText ∧
        (step st (.pickSecond v)).previewText
          = formatPreviewStr
              (tYear ((parseDate st.selectedDateText).getD 0))
              (tMonth ((parseDate st.selectedDateText).getD 0))
              (tDay ((parseDate st.selectedDateText).getD 0))
              (tHour (step st (.pickSecond v)).currentTime)
              (tMin (step st (.pickSecond v)).currentTime)
              (tSec (step st (.pickSecond v)).currentTime))) := by
  refine ⟨?_, ?_, ?_, ?_⟩
  · intro cy cmo day
    obtain ⟨e1, e2, e3⟩ := goTime_clock0 cy cmo day
    show (updatePreview _).previewText = _
    rw [updatePreview]
    simp only
    rw [e1, e2, e3]
    rfl
  · intro v hv
    rw [show step st (.pickHour v)
        = updatePreview { st with
            picker := { st.picker with hours := (sscanfD v).getD 0 },
            currentTime := pickerTime { st.picker with hours := (sscanfD v).getD 0 } } from by
      rw [step, show pickStep st.picker (.hour v)
          = ({ st.picker with hours := (sscanfD v).getD 0 },
              some (pickerTime { st.picker with hours := (sscanfD v).getD 0 })) from by
        rw [pickStep, if_pos hv]]]
    exact ⟨rfl, rfl⟩
  · intro v hv
    rw [show step st (.pickMinute v)
        = updatePreview { st with
            picker := { st.picker with minutes := (sscanfD v).getD 0 },
            currentTime := pickerTime { st.picker with minutes := (sscanfD v).getD 0 } } from by
      rw [step, show pickStep st.picker (.minute v)
          = ({ st.picker with minutes := (sscanfD v).getD 0 },
              some (pickerTime { st.picker with minutes := (sscanfD v).getD 0 })) from by
        rw [pickStep, if_pos hv]]]
    exact ⟨rfl, rfl⟩
  · intro v hv
    rw [show step st (.pickSecond v)
        = updatePreview { st with
            picker := { st.picker with seconds := (sscanfD v).getD 0 },
            currentTime := pickerTime { st.picker with seconds := (sscanfD v).getD 0 } } from by
      rw [step, show pickStep st.picker (.second v)
          = ({ st.picker with seconds := (sscanfD v).getD 0 },
              some (pickerTime { st.picker with seconds := (sscanfD v).getD 0 })) from by
        rw [pickStep, if_pos hv]]]
    exact ⟨rfl, rfl⟩

/-- Witness for C8 amended: a concrete hour selection leaves the date
label unchanged. -/
theorem c8_amended_witness :
    (step (initState (goTime 2024 5 10 7 8 9)) (Event.pickHour s03)).selectedDateText
      = (initState (goTime 2024 5 10 7 8 9)).selectedDateText :=
  ((c8_amended (initState (goTime 2024 5 10 7 8 9))).2.1 s03 (by decide)).1

/-- C8 counterexample: after picking hour 03 the preview reads
2024-05-10 03:08:09, but selecting the day 20 resets the preview clock to
00:00:00 instead of keeping 03:08:09. -/
theorem c8_counterexample :
    (step (step (initState (goTime 2024 5 10 7 8 9)) (Event.pickHour s03))
        (Event.selectDate 2024 5 20)).previewText = "2024-05-20 00:00:00" ∧
    (step (initState (goTime 2024 5 10 7 8 9)) (Event.pickHour s03)).previewText
      = "2024-05-10 03:08:09" := by
  decide

/-- C9: the today components influence only the highlight flags - erasing
them yields identical grids whatever today is. -/
theorem c9_today_only_highlight (cy cmo : Int) (h1 : 1 ≤ cmo) (h2 : cmo ≤ 12)
    (ta1 ta2 ta3 tb1 tb2 tb3 : Int) :
    (buildCells cy cmo ta1 ta2 ta3).map eraseToday
      = (buildCells cy cmo tb1 tb2 tb3).map eraseToday :=
  buildCells_erase cy cmo ta1 ta2 ta3 tb1 tb2 tb3

/-- Witness for C9 with two very different todays. -/
theorem c9_today_only_highlight_witness :
    (buildCells 2024 2 2024 2 15).map eraseToday
      = (buildCells 2024 2 2025 7 1).map eraseToday :=
  c9_today_only_highlight 2024 2 (by norm_num) (by norm_num) 2024 2 15 2025 7 1

/-- C10: whatever valid selections are made after the picker is created
with time t0, every time passed to onTimeSelected keeps the year, month
and day of t0, only the clock coming from the current selections. -/
theorem c10_picker_date_fixed (t0 : Int) (evs : List PickEvent)
    (hval : ∀ e ∈ evs, pickEventValid e) :
    ∀ t ∈ (pickRun (mkPicker t0) evs).2,
      tYear t = tYear t0 ∧ tMonth t = tMonth t0 ∧ tDay t = tDay t0 :=
  pickRun_fixed evs (mkPicker t0) (mkPicker_inRange t0) hval

/-- Witness for C10: one hour selection emits a time on the creation
date. -/
theorem c10_picker_date_fixed_witness :
    tYear ((pickRun (mkPicker (goTime 2024 5 10 7 8 9)) [PickEvent.hour s03]).2.headI)
        = tYear (goTime 2024 5 10 7 8 9) ∧
    tMonth ((pickRun (mkPicker (goTime 2024 5 10 7 8 9)) [PickEvent.hour s03]).2.headI)
        = tMonth (goTime 2024 5 10 7 8 9) ∧
    tDay ((pickRun (mkPicker (goTime 2024 5 10 7 8 9)) [PickEvent.hour s03]).2.headI)
        = tDay (goTime 2024 5 10 7 8 9) := by
  have h := c10_picker_date_fixed (goTime 2024 5 10 7 8 9) [PickEvent.hour s03]
    (by
      intro e he
      simp at he
      subst he
      show s03 ∈ generateRange 0 23
      decide)
  exact h _ (by decide)
